import Mathlib

/-!
Verification of the natural-language specification of `manova_ai_assistant/app.py`
against a shallow embedding of its code.

Modelling conventions, used throughout:
* External library calls are modelled by their observable outcome:
  `json.loads` on a tool call's wire argument string is modelled as the
  `Option Kwargs` it produces (`none` = the string is not a JSON object, so
  `json.loads` raises `JSONDecodeError`); `PdfReader`/`open().read()` are
  modelled by a filesystem snapshot record `FS` mapping paths to outcomes;
  the Groq chat-completions endpoint is modelled as an oracle function from
  the message sequence sent to the model response received.
* Python exceptions are modelled with `Except PyErr`; a `.error` value means
  the Python code raises at that point and the exception propagates.
* Side effects (the Pushover POST performed by `push`) are modelled as an
  accumulated list of `Event` values. `print` diagnostics are not modelled.
* JSON argument objects whose values are strings are modelled as association
  lists `Kwargs`; all tool parameters in this program are strings.
* `str.lower` / `str.strip` are modelled on the character lists of Lean
  strings; Python additionally lowercases / strips some non-ASCII characters,
  which no claim exercises.
-/

/-! ## String helpers (Python `in`, `str.lower`, `str.strip`) -/

/-- Python substring test `needle in hay`, on character lists. -/
def subList (needle : List Char) : List Char → Bool
  | [] => needle.isEmpty
  | h :: t => needle.isPrefixOf (h :: t) || subList needle t

/-- Python `needle in hay` on strings. -/
def strContains (hay needle : String) : Bool :=
  subList needle.data hay.data

/-- Python `str.lower` (ASCII range). -/
def pyLower (s : String) : String := s.map Char.toLower

/-- Whitespace characters stripped by Python `str.strip`
(ASCII subset; Python also strips some Unicode spaces). -/
def isPySpace (c : Char) : Bool :=
  c == ' ' || c == '\t' || c == '\n' || c == '\r' || c == '\x0b' || c == '\x0c'

/-- Python `str.strip`. -/
def pyStrip (s : String) : String :=
  String.mk (((s.data.dropWhile isPySpace).reverse.dropWhile isPySpace).reverse)

theorem strData_append (a b : String) : (a ++ b).data = a.data ++ b.data := by
  cases a; cases b; rfl

theorem strAppend_assoc (a b c : String) : a ++ b ++ c = a ++ (b ++ c) := by
  cases a; cases b; cases c
  show String.mk _ = String.mk _
  simp [String.append, List.append_assoc]

theorem strAppend_empty (a : String) : a ++ "" = a := by
  cases a
  show String.mk _ = String.mk _
  simp [String.append]

theorem isPrefixOf_append (l t : List Char) : l.isPrefixOf (l ++ t) = true := by
  induction l with
  | nil => simp [List.isPrefixOf]
  | cons h tl ih => simp [List.isPrefixOf, ih]

theorem subList_append (pre mid post : List Char) :
    subList mid (pre ++ mid ++ post) = true := by
  induction pre with
  | nil =>
    cases mid with
    | nil =>
      cases post with
      | nil => rfl
      | cons h t => simp [subList, List.isPrefixOf]
    | cons m mt =>
      show subList (m :: mt) (m :: (mt ++ post)) = true
      have hpre : (m :: mt).isPrefixOf (m :: (mt ++ post)) = true :=
        isPrefixOf_append (m :: mt) post
      simp only [subList, hpre, Bool.true_or]
  | cons p pt ih =>
    show subList mid (p :: (pt ++ mid ++ post)) = true
    simp only [subList, ih, Bool.or_true]

theorem strContains_append (pre mid post : String) :
    strContains (pre ++ mid ++ post) mid = true := by
  unfold strContains
  rw [strData_append, strData_append]
  exact subList_append pre.data mid.data post.data

theorem dropWhile_all (p : Char → Bool) :
    ∀ l : List Char, (∀ c ∈ l, p c = true) → List.dropWhile p l = [] := by
  intro l
  induction l with
  | nil => intro _; rfl
  | cons c t ih =>
    intro h
    have hc : p c = true := h c (by simp)
    simp only [List.dropWhile, hc]
    exact ih fun x hx => h x (by simp [hx])

/-! ## Events and notification tools

`push` performs an HTTP POST to Pushover; modelled as one `Event`. -/

inductive Event where
  | push (text : String)
deriving DecidableEq, Repr

/-- The notification text carried by an event. -/
def Event.text : Event → String
  | .push t => t

/-- `push(text)`: one Pushover notification. -/
def push (text : String) : List Event := [Event.push text]

/-- `record_user_details`: returns the JSON-dumped `{"recorded": "ok"}` and
pushes one notification. -/
def record_user_details (email name notes : String) : String × List Event :=
  ("\x7b\"recorded\": \"ok\"\x7d",
   push ("Recording " ++ name ++ " with email " ++ email ++ " and notes " ++ notes))

/-- `record_unknown_question`: returns the JSON-dumped `{"recorded": "ok"}` and
pushes one notification. -/
def record_unknown_question (question : String) : String × List Event :=
  ("\x7b\"recorded\": \"ok\"\x7d",
   push ("Recording unknown question: " ++ question))

/-! ## Knowledge loader (`Me._load_documents`) -/

/-- The configured PDF paths, in source order. -/
def pdf_paths : List String :=
  ["me/cv.pdf", "knowledge_base/ManovaLebaku Moses.pdf"]

/-- The configured plain-text paths. -/
def text_paths : List String := ["me/summary.txt"]

/-- The configured image paths. -/
def image_paths : List String :=
  ["knowledge_base/certifications/WhatsApp Image 2024-04-18 at 2.59.18 PM (4).jpeg"]

/-- A filesystem snapshot: `os.path.exists`, reading a PDF page by page with
`PdfReader` (each page the text `extract_text` produces, `""` when it yields
nothing; `.error` when `PdfReader` raises), and reading a text file whole
(`.error` when `open`/`read` raises). -/
structure FS where
  pathExists : String → Bool
  readPdf : String → Except Unit (List String)
  readTxt : String → Except Unit String

/-- One iteration of the PDF loading loop: skip a missing path, swallow a
reader exception, append each non-empty page text after a newline. -/
def pdfStep (fs : FS) (kb : String) (p : String) : String :=
  if fs.pathExists p then
    match fs.readPdf p with
    | .ok pages => pages.foldl (fun kb text => if text ≠ "" then kb ++ "\n" ++ text else kb) kb
    | .error _ => kb
  else kb

/-- One iteration of the text-file loading loop. -/
def txtStep (fs : FS) (kb : String) (p : String) : String :=
  if fs.pathExists p then
    match fs.readTxt p with
    | .ok content => kb ++ "\n" ++ content
    | .error _ => kb
  else kb

/-- The aggregate knowledge-base text `self.knowledge_base_text`
built by `_load_documents`: PDFs first, then text files. -/
def loadKBText (fs : FS) : String :=
  text_paths.foldl (txtStep fs) (pdf_paths.foldl (pdfStep fs) "")

/-- `self.image_paths`: configured image paths filtered by existence. -/
def loadImagePaths (fs : FS) : List String :=
  image_paths.filter fs.pathExists

/-- The full result of `_load_documents`. -/
def load_documents (fs : FS) : String × List String :=
  (loadKBText fs, loadImagePaths fs)

/-! Spec-side description of the loader, for the refinement claim:
the concatenation, in the fixed configured document order, of each PDF
page's non-empty extracted text and each whole text file's content, each
chunk separated by a newline from the preceding aggregate. -/

/-- Append each chunk after a newline to the growing aggregate. -/
def glue (chunks : List String) : String :=
  chunks.foldl (fun acc c => acc ++ "\n" ++ c) ""

/-- Modelled from the spec: the chunks one readable PDF contributes —
its pages' extracted texts, keeping only the non-empty ones. -/
def pdfChunks (fs : FS) (p : String) : List String :=
  if fs.pathExists p then
    match fs.readPdf p with
    | .ok pages => pages.filter (fun t => decide (t ≠ ""))
    | .error _ => []
  else []

/-- Modelled from the spec: the chunk one readable text file contributes —
its whole content. -/
def txtChunks (fs : FS) (p : String) : List String :=
  if fs.pathExists p then
    match fs.readTxt p with
    | .ok content => [content]
    | .error _ => []
  else []

/-- All chunks contributed by a path list. -/
def chunksOf (f : String → List String) : List String → List String
  | [] => []
  | p :: ps => f p ++ chunksOf f ps

/-- Modelled from the spec: every chunk in the fixed configured document
order — the two PDF paths first, page by page, then the text file. -/
def kbChunks (fs : FS) : List String :=
  chunksOf (pdfChunks fs) pdf_paths ++ chunksOf (txtChunks fs) text_paths

/-- Modelled from the spec: the loaded knowledge-base text as the spec
describes it. -/
def loadKBTextSpec (fs : FS) : String := glue (kbChunks fs)

theorem foldl_glue (l : List String) :
    ∀ s, l.foldl (fun acc c => acc ++ "\n" ++ c) s = s ++ glue l := by
  induction l with
  | nil => intro s; simp [glue, List.foldl, strAppend_empty]
  | cons c t ih =>
    intro s
    show List.foldl _ (s ++ "\n" ++ c) t = s ++ glue (c :: t)
    rw [ih]
    have hg : glue (c :: t) = ("" ++ "\n" ++ c) ++ glue t := by
      show List.foldl _ ("" ++ "\n" ++ c) t = _
      rw [ih]
    rw [hg]
    rw [strAppend_assoc s "\n" c, strAppend_assoc s ("\n" ++ c) (glue t)]
    have : ("" ++ "\n" ++ c) = "\n" ++ c := rfl
    rw [this]

theorem glue_cons (c : String) (l : List String) :
    glue (c :: l) = ("\n" ++ c) ++ glue l := by
  show List.foldl _ ("" ++ "\n" ++ c) l = _
  rw [foldl_glue]
  rfl

theorem glue_append (l1 l2 : List String) :
    glue (l1 ++ l2) = glue l1 ++ glue l2 := by
  show List.foldl _ "" (l1 ++ l2) = _
  rw [List.foldl_append, foldl_glue]
  rfl

theorem pagesFold (pages : List String) :
    ∀ kb, pages.foldl (fun kb text => if text ≠ "" then kb ++ "\n" ++ text else kb) kb
      = kb ++ glue (pages.filter (fun t => decide (t ≠ ""))) := by
  induction pages with
  | nil => intro kb; simp [glue, List.foldl, strAppend_empty]
  | cons t ts ih =>
    intro kb
    by_cases h : t = ""
    · subst h
      show List.foldl _ (if ("" : String) ≠ "" then kb ++ "\n" ++ "" else kb) ts = _
      rw [if_neg (by simp), ih]
      simp [List.filter]
    · show List.foldl _ (if t ≠ "" then kb ++ "\n" ++ t else kb) ts = _
      rw [if_pos h, ih]
      have : (t :: ts).filter (fun t => decide (t ≠ ""))
          = t :: ts.filter (fun t => decide (t ≠ "")) := by
        simp [List.filter, h]
      rw [this, glue_cons, strAppend_assoc kb "\n" t,
        strAppend_assoc kb ("\n" ++ t) (glue (ts.filter (fun t => decide (t ≠ ""))))]

theorem pdfStep_glue (fs : FS) (kb p : String) :
    pdfStep fs kb p = kb ++ glue (pdfChunks fs p) := by
  unfold pdfStep pdfChunks
  by_cases h : fs.pathExists p
  · rw [if_pos h, if_pos h]
    cases fs.readPdf p with
    | ok pages => exact pagesFold pages kb
    | error e =>
      show kb = kb ++ glue ([] : List String)
      exact (strAppend_empty kb).symm
  · rw [if_neg h, if_neg h]
    exact (strAppend_empty kb).symm

theorem txtStep_glue (fs : FS) (kb p : String) :
    txtStep fs kb p = kb ++ glue (txtChunks fs p) := by
  unfold txtStep txtChunks
  by_cases h : fs.pathExists p
  · rw [if_pos h, if_pos h]
    cases fs.readTxt p with
    | ok content =>
      show kb ++ "\n" ++ content = kb ++ glue [content]
      rw [glue_cons]
      have h0 : glue ([] : List String) = "" := rfl
      rw [h0, strAppend_empty, strAppend_assoc]
    | error e =>
      show kb = kb ++ glue ([] : List String)
      exact (strAppend_empty kb).symm
  · rw [if_neg h, if_neg h]
    simp [glue, strAppend_empty]

theorem pathsFold_glue (fs : FS) (step : FS → String → String → String)
    (chunks : String → List String)
    (hstep : ∀ kb p, step fs kb p = kb ++ glue (chunks p)) (paths : List String) :
    ∀ kb, paths.foldl (step fs) kb = kb ++ glue (chunksOf chunks paths) := by
  induction paths with
  | nil => intro kb; simp [chunksOf, glue, List.foldl, strAppend_empty]
  | cons p ps ih =>
    intro kb
    show List.foldl (step fs) (step fs kb p) ps = _
    rw [ih, hstep]
    show kb ++ glue (chunks p) ++ glue (chunksOf chunks ps) = _
    rw [strAppend_assoc, ← glue_append]
    rfl

theorem loadKBText_eq (fs : FS) : loadKBText fs = glue (kbChunks fs) := by
  unfold loadKBText kbChunks
  rw [pathsFold_glue fs pdfStep (pdfChunks fs) (pdfStep_glue fs) pdf_paths,
    pathsFold_glue fs txtStep (txtChunks fs) (txtStep_glue fs) text_paths,
    glue_append]
  rfl

theorem chunksOf_mem (f : String → List String) (paths : List String) (p : String)
    (hp : p ∈ paths) (x : String) (hx : x ∈ f p) : x ∈ chunksOf f paths := by
  induction paths with
  | nil => cases hp
  | cons q qs ih =>
    cases hp with
    | head => exact List.mem_append.mpr (Or.inl hx)
    | tail _ h => exact List.mem_append.mpr (Or.inr (ih h))

theorem mem_glue_contains (l : List String) (c : String) (h : c ∈ l) :
    strContains (glue l) c = true := by
  obtain ⟨s, t, rfl⟩ := List.append_of_mem h
  rw [glue_append, glue_cons]
  have e1 : glue s ++ (("\n" ++ c) ++ glue t) = glue s ++ ("\n" ++ c) ++ glue t :=
    (strAppend_assoc _ _ _).symm
  rw [e1]
  have e2 : glue s ++ ("\n" ++ c) = glue s ++ "\n" ++ c :=
    (strAppend_assoc _ _ _).symm
  rw [e2]
  exact strContains_append (glue s ++ "\n") c (glue t)

/-! ## Tool dispatch (`Me.handle_tool_call`) -/

/-- A JSON argument object with string values, as produced by `json.loads`. -/
abbrev Kwargs := List (String × String)

/-- Python exceptions this program can raise in the modelled paths. -/
inductive PyErr where
  | jsonDecodeError
  | typeErr
  | externalCall
deriving DecidableEq, Repr

/-- A tool invocation request from the model: correlation id, tool name, and
the outcome of `json.loads` on its wire argument string (`none` when the
string is not a JSON object, in which case `json.loads` raises). -/
structure ToolCall where
  id : String
  name : String
  arguments : Option Kwargs
deriving DecidableEq, Repr

/-- Conversation roles. -/
inductive Role where
  | system
  | user
  | assistant
  | tool
deriving DecidableEq, BEq, Repr

/-- A message in the sequence sent to the model. `metadata` stands for the
UI-added keys (`metadata`, `options`) that `chat` strips before the call. -/
structure Msg where
  role : Role
  content : String
  tool_calls : List ToolCall
  tool_call_id : Option String
  metadata : Option String
deriving DecidableEq, Repr

/-- First-occurrence lookup in a keyword-argument object. -/
def kwLookup (kwargs : Kwargs) (k : String) : Option String :=
  (kwargs.find? (fun kv => kv.1 == k)).map (fun kv => kv.2)

/-- Calling `record_user_details(**kwargs)`: Python keyword binding requires
`email` and accepts only `email`, `name`, `notes`; any other key or a missing
`email` raises `TypeError`. -/
def call_record_user_details (kwargs : Kwargs) : Except PyErr (String × List Event) :=
  if kwargs.all (fun kv => kv.1 == "email" || kv.1 == "name" || kv.1 == "notes") then
    match kwLookup kwargs "email" with
    | some email =>
      .ok (record_user_details email
        ((kwLookup kwargs "name").getD "Name not provided")
        ((kwLookup kwargs "notes").getD "not provided"))
    | none => .error .typeErr
  else .error .typeErr

/-- Calling `record_unknown_question(**kwargs)`: requires exactly `question`. -/
def call_record_unknown_question (kwargs : Kwargs) : Except PyErr (String × List Event) :=
  if kwargs.all (fun kv => kv.1 == "question") then
    match kwLookup kwargs "question" with
    | some q => .ok (record_unknown_question q)
    | none => .error .typeErr
  else .error .typeErr

/-- Calling `push(**kwargs)`: requires exactly `text`; returns `None`, which
`json.dumps` renders as `null`. -/
def call_push (kwargs : Kwargs) : Except PyErr (String × List Event) :=
  if kwargs.all (fun kv => kv.1 == "text") then
    match kwLookup kwargs "text" with
    | some t => .ok ("null", push t)
    | none => .error .typeErr
  else .error .typeErr

/-- A module-level global, as seen by `globals().get(tool_name)`. -/
inductive GlobalVal where
  | callable (f : Kwargs → Except PyErr (String × List Event))
  | nonCallable
  | externalCallable

/-- Module globals that are not callable (modules, dicts, lists, strings,
gradio component instances, dunder entries). Calling any of them raises
`TypeError`; all of them are truthy, so `tool(**arguments) if tool else` takes
the call branch. -/
def module_nonCallables : List String :=
  ["os", "json", "requests", "gr",
   "record_user_details_json", "record_unknown_question_json", "tools",
   "custom_css", "me", "demo", "chatbot", "textbox", "submit_btn",
   "name_input", "email_input", "contact_submit_btn",
   "__name__", "__doc__", "__package__", "__loader__", "__spec__",
   "__file__", "__builtins__"]

/-- Module globals that are callable but whose behaviour is external to this
program (imported constructors and UI callbacks); no claim exercises them. -/
def module_externalCallables : List String :=
  ["load_dotenv", "PdfReader", "Groq", "Me", "submit_contact", "respond"]

/-- `globals().get(tool_name)` at the time `handle_tool_call` runs. -/
def globalsGet (nm : String) : Option GlobalVal :=
  if nm == "record_user_details" then some (.callable call_record_user_details)
  else if nm == "record_unknown_question" then some (.callable call_record_unknown_question)
  else if nm == "push" then some (.callable call_push)
  else if module_externalCallables.contains nm then some .externalCallable
  else if module_nonCallables.contains nm then some .nonCallable
  else none

/-- `result = tool(**arguments) if tool else {}` followed by `json.dumps`:
a missing global yields the JSON-dumped empty object; a non-callable global
raises `TypeError`; an external callable is left opaque. -/
def execGlobal : Option GlobalVal → Kwargs → Except PyErr (String × List Event)
  | some (.callable f), kwargs => f kwargs
  | some .nonCallable, _ => .error .typeErr
  | some .externalCallable, _ => .error .externalCall
  | none, _ => .ok ("\x7b\x7d", [])

/-- `Me.handle_tool_call`: for each request, `json.loads` the arguments
(raising on malformed payloads), look the name up in the module globals,
execute, and append a tool message carrying the JSON-dumped result and the
request's correlation id. An exception aborts the whole call. -/
def handle_tool_call : List ToolCall → Except PyErr (List Msg × List Event)
  | [] => .ok ([], [])
  | tc :: rest =>
    match tc.arguments with
    | none => .error .jsonDecodeError
    | some kwargs =>
      match execGlobal (globalsGet tc.name) kwargs with
      | .error e => .error e
      | .ok (content, evs) =>
        match handle_tool_call rest with
        | .error e => .error e
        | .ok (msgs, evs2) =>
          .ok (⟨Role.tool, content, [], some tc.id, none⟩ :: msgs, evs ++ evs2)

/-! ## Conversation engine (`Me.system_prompt`, `Me.chat`) -/

/-- `Me.system_prompt`, rebuilt per call from the persona name and the current
knowledge-base text. -/
def system_prompt (name knowledge_base_text : String) : String :=
  "You are acting as " ++ name ++ ", a professional AI assistant representing "
    ++ name ++ " on their personal website.\n"
    ++ "Your responsibilities include:\n"
    ++ "- Answering questions ONLY based on the knowledge base below. Do NOT answer if the information is not contained in the knowledge base.\n"
    ++ "- If you do NOT know the answer from the knowledge base, respond: \"I don\x27t know\" and record the question.\n"
    ++ "- Engage professionally and politely.\n"
    ++ "- Use tools to record unknown questions and user details.\n"
    ++ "- NEVER make up information or guess beyond the knowledge base.\n\n"
    ++ "Knowledge Base Content:\n"
    ++ knowledge_base_text
    ++ "\n\nGuidelines:\n"
    ++ "- Be professional, friendly, and helpful.\n"
    ++ "- Stay strictly on topic about " ++ name ++ "\x27s professional background."

/-- The history cleaning in `chat`: drop the keys the Groq API rejects. -/
def cleanMsg (m : Msg) : Msg := { m with metadata := none }

/-- The message sequence `chat` assembles before the first model call:
one fresh system message, the cleaned prior turns, the new user message. -/
def initialMessages (name kb message : String) (history : List Msg) : List Msg :=
  ⟨Role.system, system_prompt name kb, [], none, none⟩ ::
    (history.map cleanMsg ++ [⟨Role.user, message, [], none, none⟩])

/-- A remote model response: either a final answer (`finish_reason` is not
`tool_calls`) or an assistant message requesting tool invocations. -/
inductive ModelResponse where
  | final (content : String)
  | toolCalls (content : String) (tool_calls : List ToolCall)

/-- Result of the tool-calling loop: final answer, notification events raised
during the loop, and the trace of message sequences sent to the model. -/
structure LoopOk where
  answer : String
  events : List Event
  trace : List (List Msg)

/-- Loop outcome; `outOfFuel` means the source's unbounded `while` loop has
not produced a final answer within the given number of rounds. -/
inductive LoopOutcome where
  | ok (r : LoopOk)
  | err (e : PyErr)
  | outOfFuel

/-- The `while not done` loop of `Me.chat`. The source has no round bound;
the fuel argument only observes a finite prefix of its execution. -/
def chatLoop (oracle : List Msg → ModelResponse) :
    Nat → List Msg → List Event → List (List Msg) → LoopOutcome
  | 0, _, _, _ => .outOfFuel
  | fuel + 1, messages, events, trace =>
    match oracle messages with
    | .final content => .ok ⟨content, events, trace ++ [messages]⟩
    | .toolCalls content tcs =>
      match handle_tool_call tcs with
      | .error e => .err e
      | .ok (results, evs) =>
        chatLoop oracle fuel
          (messages ++ (⟨Role.assistant, content, tcs, none, none⟩ :: results))
          (events ++ evs) (trace ++ [messages])

/-- The post-processing phrase scan of `chat`:
`any(phrase in answer.lower() for phrase in [...])`. -/
def phraseHit (answer : String) : Bool :=
  ["i don\x27t know", "cannot answer", "not in my knowledge base", "no information"].any
    (fun phrase => strContains (pyLower answer) phrase)

/-- The result of one `chat` call: the answer, the events raised inside the
loop, and the events raised by the post-processing phrase scan. -/
structure ChatResult where
  answer : String
  loopEvents : List Event
  postEvents : List Event
  trace : List (List Msg)

/-- Outcome of `Me.chat` observed for a given number of loop rounds. -/
inductive ChatOutcome where
  | ok (r : ChatResult)
  | err (e : PyErr)
  | outOfFuel

/-- `Me.chat`: assemble the messages, run the tool-calling loop, then scan the
final answer for "I don\x27t know"-style phrases and, since `recorded_unknown`
is still `False` after the loop, record the unknown question once on a hit. -/
def chat (name kb message : String) (history : List Msg)
    (oracle : List Msg → ModelResponse) (fuel : Nat) : ChatOutcome :=
  let recorded_unknown := false
  match chatLoop oracle fuel (initialMessages name kb message history) [] [] with
  | .outOfFuel => .outOfFuel
  | .err e => .err e
  | .ok r =>
    let answer := r.answer
    let post :=
      if phraseHit answer then
        if !recorded_unknown then (record_unknown_question message).2 else []
      else []
    .ok ⟨answer, r.events, post, r.trace⟩

/-! ## Presentation layer (`respond`, `submit_contact`) -/

/-- What one `respond` call produces: the returned chat history, the
notification events raised, and whether `me.chat` (a remote model call)
was invoked. -/
structure RespondResult where
  chat_history : List (String × Option String)
  events : List Event
  model_called : Bool
deriving Repr

/-- The UI `respond` handler. `chatFn` abstracts `me.chat` (message and
rebuilt history in, answer text and events out). Gradio history rows are
`(user_msg, bot_msg)` pairs with a possibly missing bot message. -/
def respond (chatFn : String → List Msg → String × List Event) (message : String)
    (chat_history : List (String × Option String)) (name email : String) : RespondResult :=
  if (pyStrip message).isEmpty then
    ⟨chat_history, [], false⟩
  else
    let groq_history := chat_history.foldr (fun p acc =>
      ⟨Role.user, p.1, [], none, none⟩ ::
        ((match p.2 with
          | some b => if b ≠ "" then [(⟨Role.assistant, b, [], none, none⟩ : Msg)] else []
          | none => []) ++ acc)) []
    let r := chatFn message groq_history
    let contactEvents :=
      if email ≠ "" then
        (record_user_details email (if name ≠ "" then name else "Name not provided")
          ("From chat: " ++ message)).2
      else []
    ⟨chat_history ++ [(message, some r.1)], r.2 ++ contactEvents, true⟩

/-- The `submit_contact` handler: result is (events raised, the status text
shown in the email box). -/
def submit_contact (name email : String) : List Event × String :=
  if email ≠ "" then
    ((record_user_details email (if name ≠ "" then name else "Name not provided")
        "Submitted via contact form").2,
     "Thank you! Contact info recorded.")
  else
    ([], "❗ Please enter your email.")

/-! ## Supporting lemmas for the claim theorems -/

theorem handle_roles_ids :
    ∀ (tcs : List ToolCall) (rs : List Msg) (evs : List Event),
      handle_tool_call tcs = .ok (rs, evs) →
      rs.map Msg.role = tcs.map (fun _ => Role.tool) ∧
      rs.map Msg.tool_call_id = tcs.map (fun tc => some tc.id) := by
  intro tcs
  induction tcs with
  | nil =>
    intro rs evs h
    simp only [handle_tool_call] at h
    injection h with h
    injection h with h1 h2
    subst h1
    exact ⟨rfl, rfl⟩
  | cons tc rest ih =>
    intro rs evs h
    simp only [handle_tool_call] at h
    split at h
    · exact absurd h (by simp)
    · split at h
      · exact absurd h (by simp)
      · split at h
        · exact absurd h (by simp)
        · rename_i kwargs hargs content evs1 hexec msgs evs2 hrec
          injection h with h
          injection h with h1 h2
          subst h1
          obtain ⟨ha, hb⟩ := ih msgs evs2 hrec
          constructor
          · simp [List.map, ha]
          · simp [List.map, hb]

/-- Join of tool-round blocks: each block is the assistant tool-call message
followed by its tool-result messages. -/
def blockJoin : List (Msg × List Msg) → List Msg
  | [] => []
  | b :: bs => b.1 :: (b.2 ++ blockJoin bs)

/-- The results appended for a round match the requested invocations: one
tool-role message per request, in request order, with matching correlation
ids. -/
def ResultsMatch (tcs : List ToolCall) (rs : List Msg) : Prop :=
  rs.map Msg.role = tcs.map (fun _ => Role.tool) ∧
  rs.map Msg.tool_call_id = tcs.map (fun tc => some tc.id)

/-- A well-formed tool round block. -/
def BlockOk (b : Msg × List Msg) : Prop :=
  b.1.role = Role.assistant ∧ ResultsMatch b.1.tool_calls b.2

/-- A message sequence sent to the model is the initial sequence followed by
complete, well-formed tool rounds. -/
def SeqOk (base seq : List Msg) : Prop :=
  ∃ blocks, seq = base ++ blockJoin blocks ∧ ∀ b ∈ blocks, BlockOk b

/-- Number of system-role messages in a sequence. -/
def sysCount (seq : List Msg) : Nat :=
  seq.countP (fun m => decide (m.role = Role.system))

theorem blockJoin_append (l1 l2 : List (Msg × List Msg)) :
    blockJoin (l1 ++ l2) = blockJoin l1 ++ blockJoin l2 := by
  induction l1 with
  | nil => rfl
  | cons b bs ih => simp [blockJoin, ih]

theorem mem_results_role (rs : List Msg) :
    ∀ (tcs : List ToolCall), rs.map Msg.role = tcs.map (fun _ => Role.tool) →
      ∀ m ∈ rs, m.role = Role.tool := by
  induction rs with
  | nil => intro tcs _ m hm; cases hm
  | cons r rt ih =>
    intro tcs h m hm
    cases tcs with
    | nil => exact absurd h (by simp)
    | cons tc tct =>
      simp only [List.map] at h
      injection h with h1 h2
      cases hm with
      | head => exact h1
      | tail _ hmem => exact ih tct h2 m hmem

theorem sysCount_blockJoin (blocks : List (Msg × List Msg))
    (h : ∀ b ∈ blocks, BlockOk b) : sysCount (blockJoin blocks) = 0 := by
  induction blocks with
  | nil => rfl
  | cons b bs ih =>
    have hb : BlockOk b := h b (by simp)
    have hrest : sysCount (blockJoin bs) = 0 := ih fun x hx => h x (by simp [hx])
    have hhead : (decide (b.1.role = Role.system)) = false := by
      rw [hb.1]; decide
    have hres : sysCount b.2 = 0 := by
      apply List.countP_eq_zero.mpr
      intro m hm
      have := mem_results_role b.2 b.1.tool_calls hb.2.1 m hm
      simp [this]
    show sysCount (b.1 :: (b.2 ++ blockJoin bs)) = 0
    unfold sysCount at *
    rw [List.countP_cons, List.countP_append, hhead, hres, hrest]
    simp

theorem cleanMsg_role (m : Msg) : (cleanMsg m).role = m.role := rfl

theorem sysCount_initial (name kb message : String) (history : List Msg)
    (hsys : ∀ m ∈ history, m.role ≠ Role.system) :
    sysCount (initialMessages name kb message history) = 1 := by
  unfold initialMessages sysCount
  rw [List.countP_cons, List.countP_append]
  have h1 : (history.map cleanMsg).countP (fun m => decide (m.role = Role.system)) = 0 := by
    apply List.countP_eq_zero.mpr
    intro m hm
    obtain ⟨m0, hm0, rfl⟩ := List.mem_map.mp hm
    have := hsys m0 hm0
    rw [cleanMsg_role]
    simp [this]
  rw [h1]
  rfl

theorem chatLoop_seqOk (oracle : List Msg → ModelResponse) (base : List Msg) :
    ∀ (fuel : Nat) (messages : List Msg) (events : List Event)
      (trace : List (List Msg)) (r : LoopOk),
      chatLoop oracle fuel messages events trace = .ok r →
      SeqOk base messages →
      (∀ s ∈ trace, SeqOk base s) →
      ∀ s ∈ r.trace, SeqOk base s := by
  intro fuel
  induction fuel with
  | zero =>
    intro messages events trace r h
    exact absurd h (by simp [chatLoop])
  | succ n ih =>
    intro messages events trace r h hm ht
    simp only [chatLoop] at h
    split at h
    · rename_i content heq
      injection h with h
      subst h
      intro s hs
      simp only [List.mem_append, List.mem_singleton] at hs
      cases hs with
      | inl hin => exact ht s hin
      | inr hlast => exact hlast ▸ hm
    · rename_i content tcs heq
      split at h
      · exact absurd h (by simp)
      · rename_i results evs hhandle
        refine ih _ _ _ _ h ?_ ?_
        · obtain ⟨blocks, rfl, hb⟩ := hm
          refine ⟨blocks ++ [(⟨Role.assistant, content, tcs, none, none⟩, results)], ?_, ?_⟩
          · rw [blockJoin_append, List.append_assoc]
            simp [blockJoin]
          · intro b hbmem
            rcases List.mem_append.mp hbmem with hold | hnew
            · exact hb b hold
            · have : b = (⟨Role.assistant, content, tcs, none, none⟩, results) := by
                simpa using hnew
              subst this
              exact ⟨rfl, handle_roles_ids tcs results evs hhandle⟩
        · intro s hs
          simp only [List.mem_append, List.mem_singleton] at hs
          cases hs with
          | inl hin => exact ht s hin
          | inr hlast => exact hlast ▸ hm

/-! ## Claim C1 — post-processing of the final answer -/

/-- The post-processing contract of one `chat` call: when the final answer
contains one of the fixed "I don\x27t know"-style phrases (case-insensitive
substring), the post-processing step records the unknown question exactly
once with the user's message as the question; otherwise it raises no
notification. -/
def PostProcessOk (name kb message : String) (history : List Msg)
    (oracle : List Msg → ModelResponse) (fuel : Nat) : Prop :=
  match chat name kb message history oracle fuel with
  | .ok r =>
    (phraseHit r.answer = true →
      r.postEvents = [Event.push ("Recording unknown question: " ++ message)]) ∧
    (phraseHit r.answer = false → r.postEvents = [])
  | _ => True

/-- Claim C1: for every call to `chat` that returns an answer, the
post-processing step triggers `record_unknown_question` exactly once with the
user's message when the answer contains one of the fixed phrases
(case-insensitively), independent of what the model did inside the loop, and
triggers nothing otherwise. -/
theorem c1_postprocess_unknown (name kb message : String) (history : List Msg)
    (oracle : List Msg → ModelResponse) (fuel : Nat) :
    PostProcessOk name kb message history oracle fuel := by
  unfold PostProcessOk chat
  cases hL : chatLoop oracle fuel (initialMessages name kb message history) [] [] with
  | outOfFuel => trivial
  | err e => trivial
  | ok r =>
    constructor
    · intro hph
      simp [hph, record_unknown_question, push]
    · intro hph
      simp [hph]

/-! ## Claim C2 — the loop has no round bound -/

/-- A well-formed tool request the adversarial model repeats forever. -/
def advToolCall : ToolCall :=
  ⟨"call_1", "record_unknown_question", some [("question", "q")]⟩

/-- An adversarial remote model that requests a tool invocation on every
response (`finish_reason` is always `tool_calls`). -/
def advOracle : List Msg → ModelResponse :=
  fun _ => .toolCalls "" [advToolCall]

theorem chatLoop_adv :
    ∀ (fuel : Nat) (messages : List Msg) (events : List Event)
      (trace : List (List Msg)),
      chatLoop advOracle fuel messages events trace = .outOfFuel := by
  intro fuel
  induction fuel with
  | zero => intro messages events trace; rfl
  | succ n ih =>
    intro messages events trace
    have hstep : chatLoop advOracle (n + 1) messages events trace
        = chatLoop advOracle n
            (messages ++ (⟨Role.assistant, "", [advToolCall], none, none⟩ ::
              [⟨Role.tool, "\x7b\"recorded\": \"ok\"\x7d", [], some "call_1", none⟩]))
            (events ++ [Event.push ("Recording unknown question: " ++ "q")])
            (trace ++ [messages]) := rfl
    rw [hstep]
    exact ih _ _ _

/-- Claim C2: the source's tool-calling loop has no maximum round count — an
adversarial model that requests tools on every response keeps the loop
running: for every number of observed rounds, `chat` has produced no final
answer (contrary to the claim that it terminates within a configured bound,
which does not exist in the code). -/
theorem c2_no_round_bound (fuel : Nat) (name kb message : String) (history : List Msg) :
    chat name kb message history advOracle fuel = .outOfFuel := by
  simp only [chat, chatLoop_adv]

/-! ## Claim C3 — a malformed tool-argument payload aborts the whole turn -/

/-- A tool request whose wire argument string is not valid JSON (for example
`"not json"`), so `json.loads` raises `JSONDecodeError`. -/
def malformedToolCall : ToolCall := ⟨"call_7", "record_unknown_question", none⟩

/-- Claim C3 (refuted by the code): `json.loads` in `handle_tool_call` is not
guarded, so a single malformed argument payload raises out of
`handle_tool_call` and aborts the whole `chat` turn, instead of failing only
that invocation with a tool-error result. -/
theorem c3_malformed_arguments_abort :
    handle_tool_call [malformedToolCall] = .error PyErr.jsonDecodeError ∧
    chat "Manova" "kb" "hi" []
      (fun _ => ModelResponse.toolCalls "" [malformedToolCall]) 3
      = .err PyErr.jsonDecodeError :=
  ⟨rfl, rfl⟩

/-! ## Claim C4 — message sequence invariant -/

/-- The message-sequence invariant of one `chat` call: every sequence sent to
the model is the freshly built system message, the cleaned prior turns and
the newest user message, followed by completed tool rounds — each tool-call
assistant message immediately followed by one tool result per requested
invocation, in request order, with matching correlation ids — and contains
exactly one system message. -/
def ChatTraceOk (name kb message : String) (history : List Msg)
    (oracle : List Msg → ModelResponse) (fuel : Nat) : Prop :=
  match chat name kb message history oracle fuel with
  | .ok r => ∀ seq ∈ r.trace,
      SeqOk (initialMessages name kb message history) seq ∧ sysCount seq = 1
  | _ => True

/-- Claim C4: whenever `chat` completes, every message sequence it sent to
the remote model starts with exactly one freshly rebuilt system message, the
prior turns and the newest user message, and every tool-call assistant
message is immediately followed by exactly one matching ToolResult per
requested invocation, in order, before the next model call. -/
theorem c4_message_invariant (name kb message : String) (history : List Msg)
    (oracle : List Msg → ModelResponse) (fuel : Nat)
    (hsys : ∀ m ∈ history, m.role ≠ Role.system) :
    ChatTraceOk name kb message history oracle fuel := by
  unfold ChatTraceOk
  cases hc : chat name kb message history oracle fuel with
  | err e => trivial
  | outOfFuel => trivial
  | ok r =>
    simp only [chat] at hc
    split at hc
    · exact absurd hc (by simp)
    · exact absurd hc (by simp)
    · rename_i l heq
      injection hc with hc
      subst hc
      intro seq hseq
      have hbase : SeqOk (initialMessages name kb message history)
          (initialMessages name kb message history) :=
        ⟨[], (List.append_nil _).symm, by simp⟩
      have htr : ∀ s ∈ ([] : List (List Msg)),
          SeqOk (initialMessages name kb message history) s := by
        intro s hs; cases hs
      have hall := chatLoop_seqOk oracle (initialMessages name kb message history)
        fuel _ [] [] l heq hbase htr seq hseq
      refine ⟨hall, ?_⟩
      obtain ⟨blocks, heq2, hb⟩ := hall
      rw [heq2]
      unfold sysCount
      rw [List.countP_append]
      have h1 := sysCount_initial name kb message history hsys
      unfold sysCount at h1
      have h2 := sysCount_blockJoin blocks hb
      unfold sysCount at h2
      rw [h1, h2]

/-- A model script for the C4 witness: request one tool round, then answer. -/
def scriptedOracle : List Msg → ModelResponse :=
  fun msgs => if msgs.length ≤ 2 then .toolCalls "" [advToolCall] else .final "All good."

/-- Witness for C4 at a concrete input. -/
theorem c4_message_invariant_witness :
    (∀ m ∈ ([] : List Msg), m.role ≠ Role.system) ∧
    ChatTraceOk "Manova" "kb" "hello" [] scriptedOracle 3 :=
  ⟨by simp, c4_message_invariant "Manova" "kb" "hello" [] scriptedOracle 3 (by simp)⟩

/-! ## Claim C5 — fail-soft loading -/

/-- Claim C5: document loading is fail-soft — whatever the rest of the
filesystem looks like (missing or unreadable PDFs included), the content of
every readable configured document is still present in the loaded
knowledge-base text; the embedding is a total function, so no per-document
failure escapes `_load_documents`. -/
theorem c5_failsoft (fs : FS) :
    (∀ content, fs.pathExists "me/summary.txt" = true →
      fs.readTxt "me/summary.txt" = Except.ok content →
      strContains (loadKBText fs) content = true) ∧
    (∀ p, p ∈ pdf_paths → ∀ pages, fs.pathExists p = true →
      fs.readPdf p = Except.ok pages →
      ∀ t, t ∈ pages → t ≠ "" → strContains (loadKBText fs) t = true) := by
  constructor
  · intro content hex hread
    rw [loadKBText_eq]
    apply mem_glue_contains
    unfold kbChunks
    apply List.mem_append.mpr
    right
    apply chunksOf_mem _ _ "me/summary.txt" (by simp [text_paths]) content
    unfold txtChunks
    rw [if_pos hex, hread]
    simp
  · intro p hp pages hex hread t ht hne
    rw [loadKBText_eq]
    apply mem_glue_contains
    unfold kbChunks
    apply List.mem_append.mpr
    left
    apply chunksOf_mem _ _ p hp t
    unfold pdfChunks
    rw [if_pos hex, hread]
    exact List.mem_filter.mpr ⟨ht, by simp [hne]⟩

/-- A snapshot where both PDFs are missing and only the text file reads. -/
def fsW : FS :=
  ⟨fun p => p == "me/summary.txt",
   fun _ => .error (),
   fun p => if p == "me/summary.txt" then .ok "Summary text." else .error ()⟩

/-- Witness for C5: with both PDF paths missing, the text file's content is
still present in the loaded knowledge base. -/
theorem c5_failsoft_witness :
    fsW.pathExists "me/summary.txt" = true ∧
    fsW.readTxt "me/summary.txt" = Except.ok "Summary text." ∧
    strContains (loadKBText fsW) "Summary text." = true :=
  ⟨rfl, rfl, (c5_failsoft fsW).1 "Summary text." rfl rfl⟩

/-! ## Claim C6 — the loaded text is the ordered newline-separated concatenation -/

/-- Claim C6: for every filesystem state, the loaded knowledge-base text
equals the concatenation, in the fixed configured document order (the two PDF
paths first, page by page, then the text file), of each PDF page's non-empty
extracted text and each readable text file's whole content, each chunk
separated by a newline from the preceding aggregate. -/
theorem c6_concat_order (fs : FS) : loadKBText fs = loadKBTextSpec fs :=
  loadKBText_eq fs

/-! ## Claim C7 — empty or whitespace-only messages are ignored -/

/-- Claim C7: submitting an empty or whitespace-only message performs no
remote model call, triggers no notification, and returns the conversation
history unchanged. -/
theorem c7_blank_message_noop (chatFn : String → List Msg → String × List Event)
    (message : String) (hist : List (String × Option String)) (name email : String)
    (h : ∀ c ∈ message.data, isPySpace c = true) :
    respond chatFn message hist name email = ⟨hist, [], false⟩ := by
  unfold respond
  have hempty : (pyStrip message).isEmpty = true := by
    unfold pyStrip
    rw [dropWhile_all isPySpace message.data h]
    rfl
  simp [hempty]

/-- Witness for C7 at a whitespace-only message. -/
theorem c7_blank_message_noop_witness :
    (∀ c ∈ ("  \t ".data), isPySpace c = true) ∧
    respond (fun _ _ => ("", [])) "  \t " [("hello", some "world")] "Ann" "a@b.c"
      = ⟨[("hello", some "world")], [], false⟩ :=
  ⟨by decide, c7_blank_message_noop _ _ _ _ _ (by decide)⟩

/-! ## Claim C8 — the contact form -/

/-- Claim C8: submitting the contact form with a non-empty email triggers
exactly one contact notification whose text contains that email; with no
email it triggers nothing and prompts for an email. -/
theorem c8_contact_form (name email : String) :
    (email ≠ "" → (submit_contact name email).1.length = 1 ∧
      ∀ e ∈ (submit_contact name email).1, strContains e.text email = true) ∧
    (email = "" → (submit_contact name email).1 = [] ∧
      (submit_contact name email).2 = "❗ Please enter your email.") := by
  constructor
  · intro he
    unfold submit_contact
    rw [if_pos he]
    refine ⟨rfl, ?_⟩
    intro e hee
    simp only [record_user_details, push, List.mem_singleton] at hee
    subst hee
    show strContains ("Recording " ++ (if name ≠ "" then name else "Name not provided")
      ++ " with email " ++ email ++ " and notes " ++ "Submitted via contact form") email = true
    rw [strAppend_assoc ("Recording " ++ (if name ≠ "" then name else "Name not provided")
      ++ " with email " ++ email) " and notes " "Submitted via contact form"]
    exact strContains_append
      ("Recording " ++ (if name ≠ "" then name else "Name not provided") ++ " with email ")
      email (" and notes " ++ "Submitted via contact form")
  · intro he
    unfold submit_contact
    rw [if_neg (by simp [he])]
    exact ⟨rfl, rfl⟩

/-- Witness for C8 at both branches. -/
theorem c8_contact_form_witness :
    (("a@b.c" : String) ≠ "" ∧ ((submit_contact "Ann" "a@b.c").1.length = 1 ∧
      ∀ e ∈ (submit_contact "Ann" "a@b.c").1, strContains e.text "a@b.c" = true)) ∧
    (("" : String) = "" ∧ ((submit_contact "Ann" "").1 = [] ∧
      (submit_contact "Ann" "").2 = "❗ Please enter your email.")) :=
  ⟨⟨by decide, (c8_contact_form "Ann" "a@b.c").1 (by decide)⟩,
   ⟨rfl, (c8_contact_form "Ann" "").2 rfl⟩⟩

/-! ## Claim C9 — loading is deterministic -/

/-- Claim C9: knowledge-base loading is deterministic — two loads against the
same filesystem snapshot (extensionally equal observations) produce identical
concatenated text and identical image-path lists. -/
theorem c9_deterministic (fs1 fs2 : FS)
    (h1 : ∀ p, fs1.pathExists p = fs2.pathExists p)
    (h2 : ∀ p, fs1.readPdf p = fs2.readPdf p)
    (h3 : ∀ p, fs1.readTxt p = fs2.readTxt p) :
    load_documents fs1 = load_documents fs2 := by
  obtain ⟨pe1, rp1, rt1⟩ := fs1
  obtain ⟨pe2, rp2, rt2⟩ := fs2
  have e1 : pe1 = pe2 := funext h1
  have e2 : rp1 = rp2 := funext h2
  have e3 : rt1 = rt2 := funext h3
  subst e1
  subst e2
  subst e3
  rfl

/-- Witness for C9 at a concrete snapshot. -/
theorem c9_deterministic_witness :
    (∀ p, fsW.pathExists p = fsW.pathExists p) ∧
    load_documents fsW = load_documents fsW :=
  ⟨fun _ => rfl,
   c9_deterministic fsW fsW (fun _ => rfl) (fun _ => rfl) (fun _ => rfl)⟩

/-! ## Claim C10 — unregistered tool names -/

/-- A tool request (well-formed empty JSON object arguments) whose name is
not a registered tool but is a module global: the CSS string `custom_css`. -/
def cssToolCall : ToolCall := ⟨"call_9", "custom_css", some []⟩

/-- Claim C10 counterexample: `custom_css` is not one of the two registered
tool names, yet `handle_tool_call` raises `TypeError` — `globals().get`
finds the module-level CSS string, which is truthy and not callable — instead
of appending an empty-object ToolResult. -/
theorem c10_counterexample : handle_tool_call [cssToolCall] = .error PyErr.typeErr :=
  rfl

/-- Claim C10 (amended): for a request whose JSON arguments parse and whose
tool name is bound to no module global at all, `handle_tool_call` does not
raise, executes no tool, and appends a ToolResult whose content is the JSON
encoding of the empty object with the request's correlation id. -/
theorem c10_unknown_name (tc : ToolCall) (kwargs : Kwargs)
    (hargs : tc.arguments = some kwargs) (hname : globalsGet tc.name = none) :
    handle_tool_call [tc]
      = .ok ([⟨Role.tool, "\x7b\x7d", [], some tc.id, none⟩], []) := by
  simp [handle_tool_call, hargs, hname, execGlobal]

/-- Witness for the amended C10 at a name bound to no module global. -/
theorem c10_unknown_name_witness :
    (⟨"id1", "frobnicate", some [("x", "y")]⟩ : ToolCall).arguments = some [("x", "y")] ∧
    globalsGet "frobnicate" = none ∧
    handle_tool_call [(⟨"id1", "frobnicate", some [("x", "y")]⟩ : ToolCall)]
      = .ok ([⟨Role.tool, "\x7b\x7d", [], some "id1", none⟩], []) :=
  ⟨rfl, rfl, c10_unknown_name _ _ rfl rfl⟩
